import Mathlib

/-!
Shallow embedding of the client-side synchronization layer of the
blackjack application (source file src/src/App.tsx), together with
proofs about its reconnect policy, message handling, turn clock,
audio cues, outbound send, and hand-value evaluation.
-/

namespace BJ

/-! Data model, translated from the type declarations at the top of App.tsx. -/

inductive Suit
  | spades
  | hearts
  | diamonds
  | clubs
deriving DecidableEq

inductive Rank
  | A
  | n2
  | n3
  | n4
  | n5
  | n6
  | n7
  | n8
  | n9
  | n10
  | J
  | Q
  | K
deriving DecidableEq

structure Card where
  id : String
  suit : Suit
  rank : Rank
deriving DecidableEq

inductive Phase
  | LOBBY
  | SHUFFLING
  | DEALING
  | INSURANCE
  | PLAYER
  | DEALER
  | RESULT
deriving DecidableEq

structure Player where
  id : String
  name : String
  stack : Int
  bet : Int
  insuranceBet : Option Int
  ready : Bool
  cards : List Card
  status : String
  result : Option String
deriving DecidableEq

structure DealerHand where
  cards : List Card
deriving DecidableEq

structure GameState where
  code : String
  players : List Player
  dealer : DealerHand
  phase : Phase
  turnIdx : Int
deriving DecidableEq

/-! Hand-value evaluation, translated from calculateValue (App.tsx lines 239-248).
The loop body adds 11 per ace while counting aces, 10 per face card, and the
face value of number cards; the while loop then downgrades aces from 11 to 1
while the sum exceeds 21 and aces remain. -/

def rankAddend : Rank → Int
  | Rank.A => 11
  | Rank.n2 => 2
  | Rank.n3 => 3
  | Rank.n4 => 4
  | Rank.n5 => 5
  | Rank.n6 => 6
  | Rank.n7 => 7
  | Rank.n8 => 8
  | Rank.n9 => 9
  | Rank.n10 => 10
  | Rank.J => 10
  | Rank.Q => 10
  | Rank.K => 10

def rawSum (cards : List Card) : Int :=
  (cards.map (fun c => rankAddend c.rank)).sum

def aceCount (cards : List Card) : Nat :=
  cards.countP (fun c => c.rank == Rank.A)

/-- The while loop of calculateValue: while the sum exceeds 21 and aces
counted as 11 remain, subtract 10 and decrement the ace counter. -/
def adjustAces : Int → Nat → Int × Nat
  | sum, 0 => (sum, 0)
  | sum, a + 1 => if 21 < sum then adjustAces (sum - 10) a else (sum, a + 1)

def calculateValue (cards : List Card) : Int :=
  (adjustAces (rawSum cards) (aceCount cards)).1

/-- The value of the ace counter after calculateValue finishes: the number of
aces of the hand still counted as 11 in the returned total. -/
def acesCountedAsEleven (cards : List Card) : Nat :=
  (adjustAces (rawSum cards) (aceCount cards)).2

lemma adjustAces_le_or_zero (a : Nat) :
    ∀ sum : Int, (adjustAces sum a).1 ≤ 21 ∨ (adjustAces sum a).2 = 0 := by
  induction a with
  | zero => intro sum; exact Or.inr rfl
  | succ a ih =>
      intro sum
      by_cases h : 21 < sum
      · simpa [adjustAces, h] using ih (sum - 10)
      · simp [adjustAces, h]
        omega

/-- Claim C6: the hand-value evaluator never returns a value that is still
reducible: either the result is at most 21, or no ace of the hand is still
counted as 11 (every ace has been downgraded to 1). -/
theorem calculate_value_irreducible (cards : List Card) :
    calculateValue cards ≤ 21 ∨ acesCountedAsEleven cards = 0 :=
  adjustAces_le_or_zero (aceCount cards) (rawSum cards)

/-! Concrete cards for the reference examples. -/

def sampleId : String := "x"

def cardA : Card := { id := sampleId, suit := Suit.spades, rank := Rank.A }

def cardA2 : Card := { id := sampleId, suit := Suit.hearts, rank := Rank.A }

def cardK : Card := { id := sampleId, suit := Suit.clubs, rank := Rank.K }

def cardQ : Card := { id := sampleId, suit := Suit.diamonds, rank := Rank.Q }

def card9 : Card := { id := sampleId, suit := Suit.spades, rank := Rank.n9 }

def card2 : Card := { id := sampleId, suit := Suit.hearts, rank := Rank.n2 }

/-- Claim C7: the evaluator returns the reference values on the example
hands: [A,K] = 21, [A,A] = 12, [A,A,9] = 21, [K,Q,2] = 22, [] = 0. -/
theorem calculate_value_examples :
    calculateValue [cardA, cardK] = 21 ∧
    calculateValue [cardA, cardA2] = 12 ∧
    calculateValue [cardA, cardA2, card9] = 21 ∧
    calculateValue [cardK, cardQ, card2] = 22 ∧
    calculateValue ([] : List Card) = 0 := by
  exact ⟨rfl, rfl, rfl, rfl, rfl⟩

lemma rawSum_eq_of_rank_perm {l1 l2 : List Card}
    (h : (l1.map Card.rank).Perm (l2.map Card.rank)) :
    rawSum l1 = rawSum l2 := by
  have h2 := (h.map rankAddend).sum_eq
  simpa [rawSum, List.map_map, Function.comp] using h2

lemma aceCount_eq_of_rank_perm {l1 l2 : List Card}
    (h : (l1.map Card.rank).Perm (l2.map Card.rank)) :
    aceCount l1 = aceCount l2 := by
  have h2 := h.countP_eq (fun r => r == Rank.A)
  simpa [aceCount, List.countP_map, Function.comp] using h2

/-- Claim C8: the evaluator is deterministic and order-independent: its
result depends only on the multiset of ranks of the hand, so any two hands
whose rank lists are permutations of one another evaluate to the same value,
and re-evaluating the same hand gives the same value. -/
theorem calculate_value_perm_invariant (l1 l2 : List Card)
    (h : (l1.map Card.rank).Perm (l2.map Card.rank)) :
    calculateValue l1 = calculateValue l2 ∧
    calculateValue l1 = calculateValue l1 := by
  refine ⟨?_, rfl⟩
  unfold calculateValue
  rw [rawSum_eq_of_rank_perm h, aceCount_eq_of_rank_perm h]

/-- Witness for C8 at a concrete pair of hands: [A,K] and [K,A] are rank
permutations of each other and evaluate equal. -/
theorem calculate_value_perm_invariant_witness :
    calculateValue [cardA, cardK] = calculateValue [cardK, cardA] :=
  (calculate_value_perm_invariant [cardA, cardK] [cardK, cardA]
    (List.Perm.swap Rank.K Rank.A [])).1

/-! Connection lifecycle, translated from the useWs hook (App.tsx lines
168-234). The state records the connected and reconnecting flags, the
multiset of reconnect timers currently pending in the event loop, the timer
handle stored in reconnectTimeoutRef (the source overwrites this handle on
every close without clearing the previous timer), and a counter supplying
fresh timer ids. Close, open and timer-fire events are the transitions. -/

structure RetryTimer where
  id : Nat
  delayMs : Nat
deriving DecidableEq

structure WsState where
  connected : Bool
  reconnecting : Bool
  pendingTimers : List RetryTimer
  trackedTimer : Option Nat
  nextId : Nat
deriving DecidableEq

def wsInit : WsState :=
  { connected := false, reconnecting := false, pendingTimers := [],
    trackedTimer := none, nextId := 0 }

/-- The ws.onclose handler: set connected false and reconnecting true, and
unconditionally schedule a fresh 2000 ms reconnect timer, storing its handle
in reconnectTimeoutRef (without cancelling any previously pending timer). -/
def wsOnClose (s : WsState) : WsState :=
  { s with
    connected := false
    reconnecting := true
    pendingTimers := s.pendingTimers ++ [{ id := s.nextId, delayMs := 2000 }]
    trackedTimer := some s.nextId
    nextId := s.nextId + 1 }

/-- The ws.onopen handler: set connected true and reconnecting false, and if
reconnectTimeoutRef holds a handle, clearTimeout it and null the ref. -/
def wsOnOpen (s : WsState) : WsState :=
  { s with
    connected := true
    reconnecting := false
    pendingTimers :=
      match s.trackedTimer with
      | some h => s.pendingTimers.filter (fun t => t.id != h)
      | none => s.pendingTimers
    trackedTimer := none }

/-- A pending reconnect timer fires: it leaves the pending queue and its
callback calls connect(), which is a no-op when the socket is already open
and otherwise sets reconnecting true and opens a new socket. -/
def wsTimerFire (s : WsState) (t : RetryTimer) : WsState :=
  if s.connected then
    { s with pendingTimers := s.pendingTimers.erase t }
  else
    { s with pendingTimers := s.pendingTimers.erase t, reconnecting := true }

/-- Event sequences of the useWs connection lifecycle: any interleaving of
close events (one per closing socket), successful opens, and fires of
pending timers. -/
inductive ReachableWs : WsState → Prop
  | init : ReachableWs wsInit
  | close {s} : ReachableWs s → ReachableWs (wsOnClose s)
  | reopen {s} : ReachableWs s → ReachableWs (wsOnOpen s)
  | fire {s t} : ReachableWs s → t ∈ s.pendingTimers → ReachableWs (wsTimerFire s t)

/-- Claim C1, counterexample: it is not true that at most one reconnect
timer is ever pending. Two close events in a row (two sockets closing within
the 2000 ms window) leave two pending timers, because the onclose handler
schedules unconditionally and overwrites the tracked handle without
cancelling the previous timer. -/
theorem reconnect_single_timer_refuted :
    ¬ (∀ st : WsState, ReachableWs st → st.pendingTimers.length ≤ 1) := by
  intro h
  exact absurd
    (h (wsOnClose (wsOnClose wsInit)) (ReachableWs.close (ReachableWs.close ReachableWs.init)))
    (by decide)

lemma reachable_delay_2000 {st : WsState} (h : ReachableWs st) :
    ∀ t ∈ st.pendingTimers, t.delayMs = 2000 := by
  induction h with
  | init => intro t ht; simp [wsInit] at ht
  | @close s _ ih =>
      intro t ht
      simp only [wsOnClose, List.mem_append, List.mem_singleton] at ht
      rcases ht with ht | ht
      · exact ih t ht
      · rw [ht]
  | @reopen s _ ih =>
      intro t ht
      apply ih
      simp only [wsOnOpen] at ht
      cases htr : s.trackedTimer with
      | none => rw [htr] at ht; exact ht
      | some k => rw [htr] at ht; exact List.mem_of_mem_filter ht
  | @fire s t0 _ _ ih =>
      intro t ht
      simp only [wsTimerFire] at ht
      split at ht <;> exact ih t (List.mem_of_mem_erase ht)

/-- Claim C1, amended and proved: on every close event exactly one reconnect
timer is scheduled, with a fixed 2000 ms delay, and its handle replaces the
tracked handle; every timer pending in any reachable state has the fixed
2000 ms delay; and on a successful reopen the tracked pending retry timer
(the most recently scheduled one) is cancelled. A second close event while a
timer is pending schedules a second timer rather than being suppressed. -/
theorem reconnect_schedule_spec (st : WsState) (h : ReachableWs st) :
    (wsOnClose st).pendingTimers.length = st.pendingTimers.length + 1 ∧
    (wsOnClose st).trackedTimer = some st.nextId ∧
    (∀ t ∈ st.pendingTimers, t.delayMs = 2000) ∧
    (∀ k, st.trackedTimer = some k →
      ∀ t ∈ (wsOnOpen st).pendingTimers, t.id ≠ k) ∧
    (wsOnOpen st).connected = true := by
  refine ⟨by simp [wsOnClose], rfl, reachable_delay_2000 h, ?_, rfl⟩
  intro k hk t ht
  simp only [wsOnOpen, hk] at ht
  have := List.of_mem_filter ht
  simpa using this

/-- Witness for the amended C1 at a concrete reachable state: the first
close event takes the pending-timer count from 0 to 1. -/
theorem reconnect_schedule_spec_witness :
    (wsOnClose wsInit).pendingTimers.length = wsInit.pendingTimers.length + 1 :=
  (reconnect_schedule_spec wsInit ReachableWs.init).1

/-! Inbound message handling, translated from the ws.onmessage handler
(App.tsx lines 203-210): JSON.parse the raw text inside a try/catch; on
success, if the decoded frame has type "state" install its state field as
the published snapshot, otherwise leave the snapshot alone; a parse failure
is caught and the snapshot is left alone. The decoded value is modelled as
the result of parsing: an error, or a frame whose type field may be absent
and whose state field may be absent. -/

structure RawFrame where
  frameType : Option String
  frameState : Option GameState
deriving DecidableEq

def stateKind : String := "state"

def handleMessage (decoded : Except String RawFrame) (prev : Option GameState) :
    Option GameState :=
  match decoded with
  | Except.error _ => prev
  | Except.ok d => if d.frameType = some stateKind then d.frameState else prev

/-- Claim C2: a raw message that fails to decode leaves the published
snapshot unchanged (the handler catches the error and returns), a decoded
frame whose kind is not the state kind leaves the snapshot unchanged, and a
frame of the state kind replaces the snapshot with its carried state. -/
theorem state_frame_only_updates (e : String) (prev : Option GameState) (d : RawFrame) :
    handleMessage (Except.error e) prev = prev ∧
    (d.frameType ≠ some stateKind → handleMessage (Except.ok d) prev = prev) ∧
    (d.frameType = some stateKind → handleMessage (Except.ok d) prev = d.frameState) := by
  refine ⟨rfl, ?_, ?_⟩
  · intro h
    simp [handleMessage, h]
  · intro h
    simp [handleMessage, h]

def parseErrorText : String := "malformed"

/-- Witness for C2 at concrete inputs: a decode failure and a frame with no
type field both leave the snapshot (here none) unchanged. -/
theorem state_frame_only_updates_witness :
    handleMessage (Except.error parseErrorText) none = none ∧
    handleMessage (Except.ok { frameType := none, frameState := none }) none = none :=
  And.intro
    (state_frame_only_updates parseErrorText none { frameType := none, frameState := none }).1
    ((state_frame_only_updates parseErrorText none { frameType := none, frameState := none }).2.1
      (by decide))

/-! Outbound send, translated from the send helper of useWs (App.tsx lines
223-226): if there is no socket or the socket is not OPEN, return without
doing anything; otherwise write the serialized envelope of type and payload
onto the socket. The observable effect of a write is recorded as the list of
envelopes sent on the socket. -/

inductive ReadyState
  | CONNECTING
  | OPEN
  | CLOSING
  | CLOSED
deriving DecidableEq

inductive Payload
  | joinName (name : String)
  | readyFlag (ready : Bool)
  | betValue (value : Int)
deriving DecidableEq

structure OutMsg where
  msgType : String
  payload : Option Payload
deriving DecidableEq

structure Socket where
  readyState : ReadyState
  sentMessages : List OutMsg
deriving DecidableEq

def wsSend (sock : Option Socket) (msgType : String) (payload : Option Payload) :
    Option Socket :=
  match sock with
  | none => none
  | some s =>
      if s.readyState = ReadyState.OPEN then
        some { s with sentMessages := s.sentMessages ++ [{ msgType := msgType, payload := payload }] }
      else
        some s

/-- Claim C5: for every kind and payload, send with no socket or with a
socket not in the OPEN state is a silent no-op (nothing written or queued,
state unchanged), and send with an OPEN socket appends exactly the one
serialized envelope of that kind and payload. -/
theorem send_requires_open (msgType : String) (payload : Option Payload) :
    wsSend none msgType payload = none ∧
    (∀ s : Socket, s.readyState ≠ ReadyState.OPEN →
      wsSend (some s) msgType payload = some s) ∧
    (∀ s : Socket, s.readyState = ReadyState.OPEN →
      wsSend (some s) msgType payload =
        some { s with sentMessages := s.sentMessages ++ [{ msgType := msgType, payload := payload }] }) := by
  refine ⟨rfl, ?_, ?_⟩
  · intro s h
    simp [wsSend, h]
  · intro s h
    simp [wsSend, h]

def hitKind : String := "hit"

/-- Witness for C5 at concrete inputs: sending hit with no socket yields no
write, with a CLOSED socket leaves the socket unchanged, and with an OPEN
socket appends the hit envelope. -/
theorem send_requires_open_witness :
    wsSend none hitKind none = none ∧
    wsSend (some { readyState := ReadyState.CLOSED, sentMessages := [] }) hitKind none =
      some { readyState := ReadyState.CLOSED, sentMessages := [] } ∧
    wsSend (some { readyState := ReadyState.OPEN, sentMessages := [] }) hitKind none =
      some { readyState := ReadyState.OPEN, sentMessages := [{ msgType := hitKind, payload := none }] } :=
  And.intro (send_requires_open hitKind none).1
    (And.intro
      ((send_requires_open hitKind none).2.1
        { readyState := ReadyState.CLOSED, sentMessages := [] } (by decide))
      ((send_requires_open hitKind none).2.2
        { readyState := ReadyState.OPEN, sentMessages := [] } rfl))

/-! Audio cues, translated from the useSounds hook (App.tsx lines 49-165).
Every play function checks the muted flag before touching the audio backend.
The backend interactions are recorded as a list of abstract calls: a beep
with its frequency, duration (in centiseconds, since the source uses
fractional seconds) and delay, the filtered card-slide oscillator, the three
chip-stack oscillators, and the eight shuffle noise bursts. -/

inductive AudioCall
  | beep (freq : Int) (durCs : Nat) (delayMs : Nat)
  | cardSlide
  | chipStack (idx : Nat)
  | shuffleBurst (idx : Nat)
deriving DecidableEq

def playBeep (muted : Bool) (freq : Int) (durCs : Nat) (delayMs : Nat) :
    List AudioCall :=
  if muted then [] else [AudioCall.beep freq durCs delayMs]

def playMelody (muted : Bool) (notes : List Int) : List AudioCall :=
  ((notes.enum).map (fun ni => playBeep muted ni.2 15 (ni.1 * 120))).flatten

def playCardSlide (muted : Bool) : List AudioCall :=
  if muted then [] else [AudioCall.cardSlide]

def playChipStack (muted : Bool) : List AudioCall :=
  if muted then [] else [AudioCall.chipStack 0, AudioCall.chipStack 1, AudioCall.chipStack 2]

def playShuffle (muted : Bool) : List AudioCall :=
  if muted then [] else (List.range 8).map AudioCall.shuffleBurst

inductive Cue
  | cardDeal
  | chipBet
  | win
  | lose
  | blackjack
  | tick
  | shuffle
deriving DecidableEq

/-- The sounds record of useSounds: which backend calls each cue performs. -/
def cueCalls (muted : Bool) : Cue → List AudioCall
  | Cue.cardDeal => playCardSlide muted
  | Cue.chipBet => playChipStack muted
  | Cue.win => playMelody muted [523, 659, 784]
  | Cue.lose => playBeep muted 150 50 0
  | Cue.blackjack => playMelody muted [523, 659, 784, 1047, 1319]
  | Cue.tick => playBeep muted 900 5 0
  | Cue.shuffle => playShuffle muted

/-- Claim C9: with the muted flag set, every cue operation performs zero
audio-backend calls: the mute check happens before any synthesis work. -/
theorem muted_cues_silent (c : Cue) : cueCalls true c = [] := by
  cases c <;> rfl

/-! Turn clock, translated from the TurnTimer component (App.tsx lines
415-480). The effect runs whenever isActive, currentPlayer or duration
changes: it clears any existing interval, resets timeLeft to the full
duration, and only when isActive holds and a current player is present does
it start the one-second interval. The interval callback decrements the
count, plays the tick cue when the new value is at most 5 and above 0, and
on reaching 0 or below clears the interval and clamps the count to 0. -/

structure TimerState where
  timeLeft : Int
  running : Bool
deriving DecidableEq

/-- One run of the TurnTimer effect body for the given props: interval
cleared, countdown reset to the full duration, interval restarted only when
active with a present player. -/
def turnEffect (isActive : Bool) (currentPlayer : Option String) (duration : Int) :
    TimerState :=
  { timeLeft := duration, running := isActive && currentPlayer.isSome }

/-- One firing of the interval callback; the returned Nat counts the tick
cues played by this firing. A cleared interval (running false) never fires,
so firing a non-running state is the identity with zero cues. -/
def turnTickFire (s : TimerState) : TimerState × Nat :=
  if s.running then
    let newTime := s.timeLeft - 1
    let cues := if newTime ≤ 5 ∧ 0 < newTime then 1 else 0
    if newTime ≤ 0 then ({ timeLeft := 0, running := false }, cues)
    else ({ timeLeft := newTime, running := true }, cues)
  else (s, 0)

/-- Timer states arising from an effect run with duration d followed by any
number of interval firings. -/
inductive TimerReach (d : Int) : TimerState → Prop
  | start (a : Bool) (p : Option String) : TimerReach d (turnEffect a p d)
  | tick {s} : TimerReach d s → TimerReach d (turnTickFire s).1

lemma timerReach_bounds {d : Int} (hd : 0 ≤ d) {s : TimerState}
    (hs : TimerReach d s) : 0 ≤ s.timeLeft ∧ s.timeLeft ≤ d := by
  induction hs with
  | start a p => exact ⟨hd, le_refl d⟩
  | @tick s _ ih =>
      by_cases hr : s.running
      · simp only [turnTickFire, hr, if_true]
        split
        · constructor <;> simp <;> omega
        · constructor <;> simp <;> omega
      · simpa [turnTickFire, hr] using ih

/-- Claim C3: whenever the active flag or the active-player identity
changes, the effect re-runs and hard-resets the countdown to the full
duration; in every reachable timer state timeLeft stays within [0, d]; a
firing that would reach 0 or below clears the interval and clamps to 0, and
a cleared clock no longer decrements; and when the triggering condition
ends (not active, or no player) the effect leaves the interval cancelled
with the countdown reset to the full duration. -/
theorem turn_timer_reset_and_bounds (d : Int) (hd : 0 ≤ d) (a : Bool)
    (p : Option String) (s : TimerState) (hs : TimerReach d s) :
    (turnEffect a p d).timeLeft = d ∧
    (0 ≤ s.timeLeft ∧ s.timeLeft ≤ d) ∧
    (s.running = true → s.timeLeft - 1 ≤ 0 →
      (turnTickFire s).1 = { timeLeft := 0, running := false }) ∧
    (s.running = false → turnTickFire s = (s, 0)) ∧
    (a = false ∨ p = none → turnEffect a p d = { timeLeft := d, running := false }) := by
  refine ⟨rfl, timerReach_bounds hd hs, ?_, ?_, ?_⟩
  · intro hr hle
    simp [turnTickFire, hr, hle]
  · intro hr
    simp [turnTickFire, hr]
  · rintro (h | h) <;> simp [turnEffect, h]

def playerAnn : String := "Ann"

/-- Witness for C3 at a concrete trace: duration 20, active with player Ann,
after one firing the countdown is still within [0, 20]. -/
theorem turn_timer_reset_and_bounds_witness :
    0 ≤ (turnTickFire (turnEffect true (some playerAnn) 20)).1.timeLeft ∧
    (turnTickFire (turnEffect true (some playerAnn) 20)).1.timeLeft ≤ 20 :=
  (turn_timer_reset_and_bounds 20 (by decide) true (some playerAnn)
    (turnTickFire (turnEffect true (some playerAnn) 20)).1
    (TimerReach.tick (TimerReach.start true (some playerAnn)))).2.1

/-- Claim C4: a firing of the running clock plays at most one tick cue, and
plays exactly one precisely when the new remaining value lies in the
half-open interval (0, 5], i.e. is 5, 4, 3, 2 or 1; no cue is played when
the remaining value reaches 0 or stays above 5. -/
theorem low_time_tick_window (s : TimerState) (h : s.running = true) :
    ((turnTickFire s).2 = 1 ↔
      0 < (turnTickFire s).1.timeLeft ∧ (turnTickFire s).1.timeLeft ≤ 5) ∧
    ((turnTickFire s).2 = 0 ∨ (turnTickFire s).2 = 1) := by
  simp only [turnTickFire, h, if_true]
  constructor
  · split
    · split <;> simp_all <;> omega
    · split <;> simp_all <;> omega
  · split <;> split <;> simp

/-- Witness for C4 at a concrete state: a running clock at 5 fires down to
4 and plays exactly one tick cue. -/
theorem low_time_tick_window_witness :
    (turnTickFire { timeLeft := 5, running := true }).2 = 0 ∨
    (turnTickFire { timeLeft := 5, running := true }).2 = 1 :=
  (low_time_tick_window { timeLeft := 5, running := true } rfl).2

/-! Derivation of the active player in App (App.tsx lines 876-881): the
current player is players[turnIdx] when turnIdx is at least 0 (an
out-of-range index yields no player, as JS indexing yields undefined), and
the TurnTimer receives isActive from the phase test and the current player
name (with an absent player, or an empty name, passed as null). TurnTimer
renders nothing unless active with a present player. -/

def currentPlayer (st : Option GameState) : Option Player :=
  match st with
  | none => none
  | some s => if 0 ≤ s.turnIdx then s.players.get? s.turnIdx.toNat else none

def isMyTurn (st : Option GameState) (myName : String) : Bool :=
  (st.map GameState.phase == some Phase.PLAYER) &&
    ((currentPlayer st).map Player.name == some myName)

/-- The currentPlayer?.name || null expression passed to TurnTimer. -/
def timerPlayerName (st : Option GameState) : Option String :=
  match currentPlayer st with
  | none => none
  | some p => if p.name = "" then none else some p.name

/-- The isActive prop passed to TurnTimer. -/
def timerIsActive (st : Option GameState) : Bool :=
  st.map GameState.phase == some Phase.PLAYER

/-- TurnTimer renders nothing when not active or no current player. -/
def turnTimerVisible (isActive : Bool) (currentPlayer : Option String) : Bool :=
  isActive && currentPlayer.isSome

/-- Claim C10: for every snapshot whose activePlayerIndex is negative or not
a valid index into players, deriving the current player safely yields no
player, it is nobody's turn, and the turn clock neither starts running nor
renders. -/
theorem invalid_turn_index_safe (s : GameState)
    (h : s.turnIdx < 0 ∨ (s.players.length : Int) ≤ s.turnIdx) :
    currentPlayer (some s) = none ∧
    (∀ myName, isMyTurn (some s) myName = false) ∧
    (∀ d, (turnEffect (timerIsActive (some s)) (timerPlayerName (some s)) d).running = false) ∧
    turnTimerVisible (timerIsActive (some s)) (timerPlayerName (some s)) = false := by
  have hnone : currentPlayer (some s) = none := by
    rcases h with h | h
    · simp [currentPlayer, not_le.mpr h]
    · have hge : 0 ≤ s.turnIdx := le_trans (Int.ofNat_nonneg s.players.length) h
      have hlen : s.players.length ≤ s.turnIdx.toNat := by omega
      show (if 0 ≤ s.turnIdx then s.players.get? s.turnIdx.toNat else none) = none
      rw [if_pos hge]
      exact List.get?_eq_none.mpr hlen
  have hname : timerPlayerName (some s) = none := by
    simp [timerPlayerName, hnone]
  refine ⟨hnone, ?_, ?_, ?_⟩
  · intro myName
    simp [isMyTurn, hnone]
  · intro d
    simp [turnEffect, hname]
  · simp [turnTimerVisible, hname]

def roomLit : String := "ROOM"

/-- A snapshot in PLAYER phase holding the no-active-player sentinel. -/
def sentinelState : GameState :=
  { code := roomLit
    players := []
    dealer := { cards := [] }
    phase := Phase.PLAYER
    turnIdx := -1 }

/-- Witness for C10 at a concrete snapshot: PLAYER phase with the sentinel
index -1 and no players yields no active player and an inactive clock. -/
theorem invalid_turn_index_safe_witness :
    currentPlayer (some sentinelState) = none :=
  (invalid_turn_index_safe sentinelState (Or.inl (by decide))).1

end BJ
